import Mathlib

/-!
Verification of the response-validation and enrichment pipeline of the
civic-issue analyzer (src/analyzer.py, src/main.py).

Python strings are modelled as `List Char` / `String`; Python dicts parsed
from JSON are modelled as association lists with unique keys; `json.loads`
is an external stdlib capability and is modelled as an opaque parameter
`parse : String → Option Dict` (returning `none` on a decode failure and
the parsed object otherwise).  Machine floats never undergo arithmetic in
the code under verification (they are only stored and compared), so the
`confidence` field is modelled as a rational number.
-/

/-- Whitespace test used by Python `str.strip()` (the ASCII whitespace
characters: space, tab, newline, carriage return, vertical tab, form feed). -/
def isWS (c : Char) : Bool :=
  c == ' ' || c == '\t' || c == '\n' || c == '\r' || c == '\x0b' || c == '\x0c'

/-- Drop leading whitespace (Python `str.lstrip()`). -/
def trimL (s : List Char) : List Char := s.dropWhile isWS

/-- Drop trailing whitespace (Python `str.rstrip()`). -/
def trimR (s : List Char) : List Char := (s.reverse.dropWhile isWS).reverse

/-- Python `str.strip()`: drop leading and trailing whitespace. -/
def pyStrip (s : List Char) : List Char := trimR (trimL s)

/-- Fuel-indexed worker for `removeAll`; the fuel is an upper bound on the
length of the remaining input, so the recursion is structural and the
function evaluates inside the kernel. -/
def removeAllAux : Nat → List Char → List Char → List Char
  | _, _, [] => []
  | 0, _, s => s
  | fuel + 1, p, c :: rest =>
    if p ≠ [] ∧ p.isPrefixOf (c :: rest) = true then
      removeAllAux fuel p (rest.drop (p.length - 1))
    else
      c :: removeAllAux fuel p rest

/-- Python `s.replace(p, "")`: scan left to right, removing each
occurrence of `p` and resuming after the removed segment. -/
def removeAll (p s : List Char) : List Char := removeAllAux s.length p s

/-- Backtick character (U+0060). -/
def btick : Char := Char.ofNat 96

/-- The fenced-JSON opening marker removed first at analyzer.py line 74. -/
def fenceJson : List Char := "```json".data

/-- The bare code-fence marker removed second at analyzer.py line 74. -/
def ticks3 : List Char := "```".data

/-- Cleaning pipeline of `_validate_ai_response` (analyzer.py line 74):
`response_text.strip().replace("```json", "").replace("```", "").strip()`. -/
def cleanData (s : List Char) : List Char :=
  pyStrip (removeAll ticks3 (removeAll fenceJson (pyStrip s)))

/-- String-level wrapper for the cleaning pipeline. -/
def clean_text (s : String) : String := String.mk (cleanData s.data)

/-- Boolean substring test over character lists (Python `p in s`). -/
def hasSub (p : List Char) : List Char → Bool
  | [] => p.isEmpty
  | c :: rest => p.isPrefixOf (c :: rest) || hasSub p rest

-- ### Basic facts about `removeAll`

theorem removeAllAux_irrel :
    ∀ (f₁ f₂ : Nat) (p s : List Char), s.length ≤ f₁ → s.length ≤ f₂ →
      removeAllAux f₁ p s = removeAllAux f₂ p s := by
  intro f₁
  induction f₁ with
  | zero =>
    intro f₂ p s hs _
    have : s = [] := List.eq_nil_of_length_eq_zero (Nat.le_zero.mp hs)
    subst this
    cases f₂ <;> rfl
  | succ n ih =>
    intro f₂ p s hs₁ hs₂
    cases s with
    | nil => cases f₂ <;> rfl
    | cons c rest =>
      cases f₂ with
      | zero => simp at hs₂
      | succ m =>
        simp only [removeAllAux]
        by_cases hg : p ≠ [] ∧ p.isPrefixOf (c :: rest) = true
        · rw [if_pos hg, if_pos hg]
          apply ih
          · have := List.length_drop (p.length - 1) rest
            simp only [List.length_cons] at hs₁
            omega
          · have := List.length_drop (p.length - 1) rest
            simp only [List.length_cons] at hs₂
            omega
        · rw [if_neg hg, if_neg hg]
          simp only [List.length_cons] at hs₁ hs₂
          rw [ih m p rest (by omega) (by omega)]

theorem removeAll_nil (p : List Char) : removeAll p [] = [] := rfl

theorem removeAll_cons (p : List Char) (c : Char) (rest : List Char) :
    removeAll p (c :: rest) =
      if p ≠ [] ∧ p.isPrefixOf (c :: rest) = true then
        removeAll p (rest.drop (p.length - 1))
      else
        c :: removeAll p rest := by
  show removeAllAux (rest.length + 1) p (c :: rest) = _
  simp only [removeAllAux]
  by_cases hg : p ≠ [] ∧ p.isPrefixOf (c :: rest) = true
  · rw [if_pos hg, if_pos hg]
    apply removeAllAux_irrel
    · have := List.length_drop (p.length - 1) rest
      omega
    · exact le_refl _
  · rw [if_neg hg, if_neg hg]
    rfl

theorem removeAll_empty_pat (s : List Char) : removeAll [] s = s := by
  induction s with
  | nil => rfl
  | cons c rest ih =>
    rw [removeAll_cons]
    simp [ih]

theorem hasSub_iff (p s : List Char) : hasSub p s = true ↔ p <:+: s := by
  induction s with
  | nil =>
    simp only [hasSub, List.isEmpty_iff, List.infix_nil]
  | cons c rest ih =>
    simp only [hasSub, Bool.or_eq_true, List.isPrefixOf_iff_prefix, ih,
      List.infix_cons_iff]

theorem length_dropWhile_ws_le (p : Char → Bool) (l : List Char) :
    (l.dropWhile p).length ≤ l.length :=
  (List.dropWhile_suffix p).sublist.length_le

theorem isPrefixOf_false_of_ws (p : List Char) (hp : ∀ c ∈ p, isWS c = false)
    (hpne : p ≠ []) (c : Char) (hc : isWS c = true) (l : List Char) :
    p.isPrefixOf (c :: l) = false := by
  cases p with
  | nil => exact absurd rfl hpne
  | cons d p' =>
    have hd : isWS d = false := hp d (by simp)
    have hdc : d ≠ c := by
      intro h
      rw [h, hc] at hd
      exact Bool.noConfusion hd
    rw [List.isPrefixOf_cons₂]
    simp [hdc]

theorem removeAll_ws_left (p w s : List Char) (hp : ∀ c ∈ p, isWS c = false)
    (hw : ∀ c ∈ w, isWS c = true) :
    removeAll p (w ++ s) = w ++ removeAll p s := by
  induction w with
  | nil => rfl
  | cons c w' ih =>
    by_cases hpn : p = []
    · subst hpn
      rw [removeAll_empty_pat, removeAll_empty_pat]
    · have hpre := isPrefixOf_false_of_ws p hp hpn c (hw c (by simp)) (w' ++ s)
      rw [List.cons_append, removeAll_cons]
      rw [if_neg (by simp [hpre])]
      rw [ih (fun c hc => hw c (by simp [hc]))]
      rfl

theorem isPrefixOf_append_ws (p s w : List Char) (hp : ∀ c ∈ p, isWS c = false)
    (hw : ∀ c ∈ w, isWS c = true) :
    p.isPrefixOf (s ++ w) = p.isPrefixOf s := by
  by_cases h1 : p.isPrefixOf s = true
  · have hps : p <+: s := List.isPrefixOf_iff_prefix.mp h1
    have : p <+: s ++ w := hps.trans (List.prefix_append s w)
    rw [h1, List.isPrefixOf_iff_prefix.mpr this]
  · have h2 : ¬ p <+: s ++ w := by
      intro hpre
      rcases le_or_lt p.length s.length with hle | hlt
      · have ht := List.prefix_iff_eq_take.mp hpre
        rw [List.take_append_eq_append_take, Nat.sub_eq_zero_of_le hle,
          List.take_zero, List.append_nil] at ht
        exact h1 (List.isPrefixOf_iff_prefix.mpr (List.prefix_iff_eq_take.mpr ht))
      · have hplen : p.length ≤ s.length + w.length := by
          have := hpre.length_le
          rw [List.length_append] at this
          exact this
        have ht := List.prefix_iff_eq_take.mp hpre
        rw [List.take_append_eq_append_take, List.take_of_length_le (by omega)] at ht
        have hwt : w.take (p.length - s.length) ≠ [] := by
          intro h0
          rw [h0, List.append_nil] at ht
          have := congrArg List.length ht
          simp at this
          omega
        obtain ⟨c, t, hct⟩ : ∃ c t, w.take (p.length - s.length) = c :: t := by
          cases hx : w.take (p.length - s.length) with
          | nil => exact absurd hx hwt
          | cons c t => exact ⟨c, t, rfl⟩
        have hcw : c ∈ w := List.mem_of_mem_take (by rw [hct]; simp)
        have hcp : c ∈ p := by rw [ht, hct]; simp
        have hf := hp c hcp
        have htt := hw c hcw
        rw [htt] at hf
        exact Bool.noConfusion hf
    have h3 : p.isPrefixOf (s ++ w) = false := by
      cases hb : p.isPrefixOf (s ++ w) with
      | false => rfl
      | true => exact absurd (List.isPrefixOf_iff_prefix.mp hb) h2
    have h4 : p.isPrefixOf s = false := by
      cases hb : p.isPrefixOf s with
      | false => rfl
      | true => exact absurd hb h1
    rw [h3, h4]

theorem removeAll_ws_right_aux (p w : List Char) (hp : ∀ c ∈ p, isWS c = false)
    (hw : ∀ c ∈ w, isWS c = true) :
    ∀ (n : Nat) (s : List Char), s.length ≤ n →
      removeAll p (s ++ w) = removeAll p s ++ w := by
  intro n
  induction n with
  | zero =>
    intro s hs
    have : s = [] := List.eq_nil_of_length_eq_zero (Nat.le_zero.mp hs)
    subst this
    rw [List.nil_append, removeAll_nil, List.nil_append]
    have := removeAll_ws_left p w [] hp hw
    rw [List.append_nil, removeAll_nil, List.append_nil] at this
    exact this
  | succ n ih =>
    intro s hs
    cases s with
    | nil =>
      rw [List.nil_append, removeAll_nil, List.nil_append]
      have := removeAll_ws_left p w [] hp hw
      rw [List.append_nil, removeAll_nil, List.append_nil] at this
      exact this
    | cons c s' =>
      by_cases hpn : p = []
      · subst hpn
        rw [removeAll_empty_pat, removeAll_empty_pat]
      · have hg := isPrefixOf_append_ws p (c :: s') w hp hw
        simp only [List.length_cons] at hs
        by_cases hpre : p.isPrefixOf (c :: s') = true
        · have hlen : p.length ≤ s'.length + 1 := by
            have := (List.isPrefixOf_iff_prefix.mp hpre).length_le
            simpa using this
          rw [List.cons_append, removeAll_cons,
            if_pos ⟨hpn, by rw [← List.cons_append, hg]; exact hpre⟩]
          rw [removeAll_cons, if_pos ⟨hpn, hpre⟩]
          rw [List.drop_append_eq_append_drop,
            Nat.sub_eq_zero_of_le (show p.length - 1 ≤ s'.length by omega),
            List.drop_zero]
          exact ih (s'.drop (p.length - 1)) (by
            rw [List.length_drop]
            omega)
        · have hpre2 : ¬ (p ≠ [] ∧ p.isPrefixOf ((c :: s') ++ w) = true) := by
            rintro ⟨_, hb⟩
            rw [hg] at hb
            exact hpre hb
          rw [List.cons_append, removeAll_cons]
          rw [if_neg (by rw [← List.cons_append]; exact hpre2)]
          rw [removeAll_cons, if_neg (by rintro ⟨_, hb⟩; exact hpre hb)]
          rw [ih s' (by omega)]
          rfl

theorem removeAll_ws_right (p w s : List Char) (hp : ∀ c ∈ p, isWS c = false)
    (hw : ∀ c ∈ w, isWS c = true) :
    removeAll p (s ++ w) = removeAll p s ++ w :=
  removeAll_ws_right_aux p w hp hw s.length s (le_refl _)

-- ### Facts about `trimL` / `trimR` / `pyStrip`

theorem dropWhile_ws_all (w x : List Char) (hw : ∀ c ∈ w, isWS c = true) :
    (w ++ x).dropWhile isWS = x.dropWhile isWS := by
  induction w with
  | nil => rfl
  | cons c w' ih =>
    rw [List.cons_append, List.dropWhile_cons, if_pos (hw c (by simp))]
    exact ih (fun c hc => hw c (by simp [hc]))

theorem trimL_ws_all (w x : List Char) (hw : ∀ c ∈ w, isWS c = true) :
    trimL (w ++ x) = trimL x :=
  dropWhile_ws_all w x hw

theorem trimR_ws_all (x w : List Char) (hw : ∀ c ∈ w, isWS c = true) :
    trimR (x ++ w) = trimR x := by
  unfold trimR
  rw [List.reverse_append]
  rw [dropWhile_ws_all w.reverse x.reverse
    (fun c hc => hw c (List.mem_reverse.mp hc))]

theorem dropWhile_head_false (p : Char → Bool) (l : List Char) (a : Char)
    (t : List Char) (h : l.dropWhile p = a :: t) : p a = false := by
  induction l with
  | nil => exact absurd h (by simp)
  | cons b l' ih =>
    rw [List.dropWhile_cons] at h
    by_cases hb : p b = true
    · rw [if_pos hb] at h
      exact ih h
    · rw [if_neg hb] at h
      cases h
      cases hx : p a with
      | false => rfl
      | true => exact absurd hx hb

theorem dropWhile_idem (p : Char → Bool) (l : List Char) :
    (l.dropWhile p).dropWhile p = l.dropWhile p := by
  cases h : l.dropWhile p with
  | nil => rfl
  | cons a t =>
    rw [List.dropWhile_cons, if_neg (by rw [dropWhile_head_false p l a t h]; simp)]

theorem trimR_eq_reverse (y : List Char) :
    (trimR y).reverse = y.reverse.dropWhile isWS := by
  unfold trimR
  rw [List.reverse_reverse]

theorem trimR_idem (y : List Char) : trimR (trimR y) = trimR y := by
  unfold trimR
  rw [List.reverse_reverse, dropWhile_idem]

theorem trimR_front (y : List Char) : trimR y <+: y :=
  List.reverse_suffix.mp
    (by rw [trimR_eq_reverse]; exact List.dropWhile_suffix isWS)

theorem trimL_trimR_of_trimL (y : List Char) (hy : trimL y = y) :
    trimL (trimR y) = trimR y := by
  cases hz : trimR y with
  | nil => rfl
  | cons a t =>
    obtain ⟨r, hr⟩ := trimR_front y
    rw [hz] at hr
    have ha : isWS a = false := by
      cases hx : isWS a with
      | false => rfl
      | true =>
        have hdw : y = (t ++ r).dropWhile isWS := by
          rw [← hy]
          conv_lhs => rw [← hr]
          show ((a :: t) ++ r).dropWhile isWS = _
          rw [List.cons_append, List.dropWhile_cons, if_pos hx]
        have hlen := congrArg List.length hdw
        have hle := length_dropWhile_ws_le isWS (t ++ r)
        have hry := congrArg List.length hr
        simp only [List.length_append, List.length_cons] at hlen hle hry
        omega
    show (a :: t).dropWhile isWS = a :: t
    rw [List.dropWhile_cons, if_neg (by rw [ha]; simp)]

theorem pyStrip_idem (s : List Char) : pyStrip (pyStrip s) = pyStrip s := by
  unfold pyStrip
  rw [trimL_trimR_of_trimL (trimL s) (dropWhile_idem isWS s), trimR_idem]

theorem pyStrip_length_le (s : List Char) : (pyStrip s).length ≤ s.length := by
  unfold pyStrip trimR trimL
  rw [List.length_reverse]
  calc ((s.dropWhile isWS).reverse.dropWhile isWS).length
      ≤ (s.dropWhile isWS).reverse.length := length_dropWhile_ws_le _ _
    _ = (s.dropWhile isWS).length := List.length_reverse _
    _ ≤ s.length := length_dropWhile_ws_le _ _

theorem mem_pyStrip (s : List Char) (c : Char) (h : c ∈ pyStrip s) : c ∈ s := by
  have h1 : c ∈ trimL s := (trimR_front (trimL s)).sublist.mem h
  exact (List.dropWhile_suffix isWS).sublist.mem h1

theorem pyStrip_ws_wrap (w1 w2 x : List Char) (h1 : ∀ c ∈ w1, isWS c = true)
    (h2 : ∀ c ∈ w2, isWS c = true) :
    pyStrip (w1 ++ (x ++ w2)) = pyStrip x := by
  unfold pyStrip
  rw [trimL_ws_all w1 (x ++ w2) h1]
  show trimR ((x ++ w2).dropWhile isWS) = _
  rw [List.dropWhile_append]
  by_cases hx : (x.dropWhile isWS).isEmpty = true
  · rw [if_pos hx]
    have hx0 : x.dropWhile isWS = [] := List.isEmpty_iff.mp hx
    have hw0 : w2.dropWhile isWS = [] := by
      have := dropWhile_ws_all w2 [] h2
      rw [List.append_nil] at this
      rw [this]
      rfl
    rw [hw0]
    show trimR [] = trimR (trimL x)
    rw [show trimL x = x.dropWhile isWS from rfl, hx0]
  · rw [if_neg hx]
    exact trimR_ws_all (x.dropWhile isWS) w2 h2

theorem pyStrip_decomp (s : List Char) :
    ∃ w1 w2, (∀ c ∈ w1, isWS c = true) ∧ (∀ c ∈ w2, isWS c = true) ∧
      s = w1 ++ (pyStrip s ++ w2) := by
  refine ⟨s.takeWhile isWS, ((trimL s).reverse.takeWhile isWS).reverse,
    fun c hc => List.mem_takeWhile_imp hc, ?_, ?_⟩
  · intro c hc
    exact List.mem_takeWhile_imp (List.mem_reverse.mp hc)
  · conv_lhs => rw [← List.takeWhile_append_dropWhile isWS s]
    have hsp : pyStrip s ++ ((trimL s).reverse.takeWhile isWS).reverse
        = s.dropWhile isWS := by
      show trimR (trimL s) ++ _ = trimL s
      have hsplit : (trimL s).reverse.takeWhile isWS ++ (trimL s).reverse.dropWhile isWS
          = (trimL s).reverse := List.takeWhile_append_dropWhile isWS (trimL s).reverse
      have hrev := congrArg List.reverse hsplit
      rw [List.reverse_append, List.reverse_reverse] at hrev
      conv_rhs => rw [← hrev]
      rfl
    rw [hsp]

-- ### Length and self-identity facts about `removeAll`

theorem removeAll_length_le_aux (p : List Char) :
    ∀ (n : Nat) (s : List Char), s.length ≤ n →
      (removeAll p s).length ≤ s.length := by
  intro n
  induction n with
  | zero =>
    intro s hs
    have : s = [] := List.eq_nil_of_length_eq_zero (Nat.le_zero.mp hs)
    subst this
    rw [removeAll_nil]
  | succ n ih =>
    intro s hs
    cases s with
    | nil => rw [removeAll_nil]
    | cons c rest =>
      rw [removeAll_cons]
      simp only [List.length_cons] at hs
      by_cases hg : p ≠ [] ∧ p.isPrefixOf (c :: rest) = true
      · rw [if_pos hg]
        have h2 := ih (rest.drop (p.length - 1)) (by rw [List.length_drop]; omega)
        rw [List.length_drop] at h2
        simp only [List.length_cons]
        omega
      · rw [if_neg hg]
        simp only [List.length_cons]
        have := ih rest (by omega)
        omega

theorem removeAll_length_le (p s : List Char) :
    (removeAll p s).length ≤ s.length :=
  removeAll_length_le_aux p s.length s (le_refl _)

theorem removeAll_lt_of_sub_aux (p : List Char) (hpn : p ≠ []) :
    ∀ (n : Nat) (s : List Char), s.length ≤ n → hasSub p s = true →
      (removeAll p s).length < s.length := by
  intro n
  induction n with
  | zero =>
    intro s hs hsub
    have : s = [] := List.eq_nil_of_length_eq_zero (Nat.le_zero.mp hs)
    subst this
    exact absurd (List.isEmpty_iff.mp hsub) hpn
  | succ n ih =>
    intro s hs hsub
    cases s with
    | nil => exact absurd (List.isEmpty_iff.mp hsub) hpn
    | cons c rest =>
      rw [removeAll_cons]
      simp only [List.length_cons] at hs
      by_cases hg : p ≠ [] ∧ p.isPrefixOf (c :: rest) = true
      · rw [if_pos hg]
        have h2 := removeAll_length_le p (rest.drop (p.length - 1))
        have h3 : 0 < p.length := List.length_pos.mpr hpn
        rw [List.length_drop] at h2
        simp only [List.length_cons]
        omega
      · rw [if_neg hg]
        have hpre : p.isPrefixOf (c :: rest) = false := by
          cases hb : p.isPrefixOf (c :: rest) with
          | false => rfl
          | true => exact absurd ⟨hpn, hb⟩ hg
        have hsub' : hasSub p rest = true := by
          have hh : (p.isPrefixOf (c :: rest) || hasSub p rest) = true := hsub
          rw [hpre, Bool.false_or] at hh
          exact hh
        simp only [List.length_cons]
        have := ih rest (by omega) hsub'
        omega

theorem removeAll_lt_of_sub (p : List Char) (hpn : p ≠ []) (s : List Char)
    (hsub : hasSub p s = true) : (removeAll p s).length < s.length :=
  removeAll_lt_of_sub_aux p hpn s.length s (le_refl _) hsub

theorem removeAll_eq_self_of_not_sub (p : List Char) :
    ∀ s, hasSub p s = false → removeAll p s = s := by
  intro s
  induction s with
  | nil => intro _; rfl
  | cons c rest ih =>
    intro h
    have h1 : p.isPrefixOf (c :: rest) = false := by
      cases hb : p.isPrefixOf (c :: rest) with
      | false => rfl
      | true =>
        have hh : (p.isPrefixOf (c :: rest) || hasSub p rest) = false := h
        rw [hb, Bool.true_or] at hh
        exact Bool.noConfusion hh
    have h2 : hasSub p rest = false := by
      have hh : (p.isPrefixOf (c :: rest) || hasSub p rest) = false := h
      rw [h1, Bool.false_or] at hh
      exact hh
    rw [removeAll_cons,
      if_neg (by rintro ⟨_, hb⟩; rw [hb] at h1; exact Bool.noConfusion h1),
      ih h2]

theorem removeAll_eq_self_of_head_notMem (p : List Char) (c0 : Char)
    (hc0 : p.head? = some c0) :
    ∀ (s : List Char), c0 ∉ s → removeAll p s = s := by
  intro s
  induction s with
  | nil => intro _; rfl
  | cons a rest ih =>
    intro hs
    have hpne : p ≠ [] := by
      intro h
      rw [h] at hc0
      exact Option.noConfusion hc0
    cases p with
    | nil => exact absurd rfl hpne
    | cons d p' =>
      have hd : d = c0 := by
        simp only [List.head?_cons, Option.some.injEq] at hc0
        exact hc0
      have hda : d ≠ a := by
        intro h
        exact hs (by rw [← h, ← hd]; simp)
      have hpre : (d :: p').isPrefixOf (a :: rest) = false := by
        rw [List.isPrefixOf_cons₂]
        simp [hda]
      rw [removeAll_cons,
        if_neg (by rintro ⟨_, hb⟩; rw [hb] at hpre; exact Bool.noConfusion hpre),
        ih (fun hm => hs (by simp [hm]))]

-- ### The three cleaning-pipeline properties

theorem cleanData_eq_spec_order (s : List Char) :
    cleanData s = pyStrip (removeAll ticks3 (removeAll fenceJson s)) := by
  obtain ⟨w1, w2, hw1, hw2, hs⟩ := pyStrip_decomp s
  have hpf : ∀ c ∈ fenceJson, isWS c = false := by decide
  have hpt : ∀ c ∈ ticks3, isWS c = false := by decide
  conv_rhs => rw [hs]
  rw [removeAll_ws_left fenceJson w1 (pyStrip s ++ w2) hpf hw1,
    removeAll_ws_right fenceJson w2 (pyStrip s) hpf hw2,
    removeAll_ws_left ticks3 w1 (removeAll fenceJson (pyStrip s) ++ w2) hpt hw1,
    removeAll_ws_right ticks3 w2 (removeAll fenceJson (pyStrip s)) hpt hw2,
    pyStrip_ws_wrap w1 w2 (removeAll ticks3 (removeAll fenceJson (pyStrip s))) hw1 hw2]
  rfl

theorem cleanData_no_btick (s : List Char) (h : btick ∉ s) :
    cleanData s = pyStrip s := by
  have h1 : btick ∉ pyStrip s := fun hm => h (mem_pyStrip s btick hm)
  unfold cleanData
  rw [removeAll_eq_self_of_head_notMem fenceJson btick (by decide) (pyStrip s) h1,
    removeAll_eq_self_of_head_notMem ticks3 btick (by decide) (pyStrip s) h1,
    pyStrip_idem]

theorem cleanData_ne_of_ticks (s : List Char) (htrim : pyStrip s = s)
    (hsub : hasSub ticks3 s = true) : cleanData s ≠ s := by
  have hlt : (removeAll ticks3 (removeAll fenceJson s)).length < s.length := by
    by_cases hf : hasSub fenceJson s = true
    · have h1 := removeAll_lt_of_sub fenceJson (by decide) s hf
      have h2 := removeAll_length_le ticks3 (removeAll fenceJson s)
      omega
    · have hff : hasSub fenceJson s = false := by
        cases hb : hasSub fenceJson s with
        | false => rfl
        | true => exact absurd hb hf
      rw [removeAll_eq_self_of_not_sub fenceJson s hff]
      exact removeAll_lt_of_sub ticks3 (by decide) s hsub
  intro heq
  have h3 : (cleanData s).length ≤ (removeAll ticks3 (removeAll fenceJson s)).length := by
    unfold cleanData
    rw [htrim]
    exact pyStrip_length_le _
  rw [heq] at h3
  omega

/-- C9: the text handed to the JSON parser equals the raw model output with
every occurrence of "```json" removed first, then every occurrence of "```"
removed, then surrounding whitespace stripped (occurrences are removed
anywhere in the string, not only as surrounding fence markers); an input
containing no backtick is parsed as-is after whitespace stripping, while a
trimmed input containing "```" anywhere (for example inside a JSON string
value) is altered before parsing. -/
theorem C9_cleaning_semantics :
    (∀ s : List Char,
      cleanData s = pyStrip (removeAll ticks3 (removeAll fenceJson s))) ∧
    (∀ s : List Char, btick ∉ s → cleanData s = pyStrip s) ∧
    (∀ s : List Char, pyStrip s = s → hasSub ticks3 s = true →
      cleanData s ≠ s) :=
  ⟨cleanData_eq_spec_order, cleanData_no_btick, cleanData_ne_of_ticks⟩

/-- Witness for C9 at concrete inputs: a backtick-free input is only
stripped, and a trimmed payload containing "```" inside a string value is
altered. -/
theorem C9_cleaning_semantics_witness :
    cleanData "  ok  ".data = pyStrip "  ok  ".data ∧
    cleanData "a``` b".data ≠ "a``` b".data :=
  ⟨C9_cleaning_semantics.2.1 "  ok  ".data (by decide),
   C9_cleaning_semantics.2.2 "a``` b".data (by decide) (by decide)⟩

-- ### Data model for parsed JSON values and Python dicts

/-- Scalar JSON values as produced by `json.loads` for the fields of the
model response (`issue_type`, `severity`, `description` are strings and
`confidence` is a number; nested arrays and objects play no role in the
validated record's fields and are not needed for the properties below).
Numbers are modelled as rationals, since the code only stores and copies
them and performs no floating-point arithmetic. -/
inductive JValue where
  | str (s : String)
  | num (q : Rat)
  | bool (b : Bool)
  | null
deriving DecidableEq

/-- A parsed JSON object (Python dict with unique string keys), in
insertion order. -/
abbrev Dict := List (String × JValue)

/-- Python repr of a scalar value, used only inside diagnostic messages
(numbers are rendered as rationals, a stand-in for Python float repr that
no proved property depends on). -/
def JValue.pyRepr : JValue → String
  | .str s => "'" ++ s ++ "'"
  | .num q => toString q
  | .bool b => if b then "True" else "False"
  | .null => "None"

/-- Python repr of the comma-separated fields of a dict. -/
def reprFields : Dict → String
  | [] => ""
  | [(k, v)] => "'" ++ k ++ "': " ++ v.pyRepr
  | (k, v) :: rest => "'" ++ k ++ "': " ++ v.pyRepr ++ ", " ++ reprFields rest

/-- Python repr of a dict, used in the missing-key diagnostic message. -/
def reprDict (d : Dict) : String := "\x7b" ++ reprFields d ++ "\x7d"

/-- The `APIResponseError` exception of analyzer.py: raised on a JSON
decode failure (carrying the raw response text, line 77) or on a missing
required key (carrying the key name and the parsed data, line 82). -/
inductive APIResponseError where
  | decodeFailed (responseText : String)
  | missingKey (key : String) (data : Dict)
deriving DecidableEq

/-- The exception message `str(e)`, as built by the f-strings at
analyzer.py lines 77 and 82. -/
def APIResponseError.message : APIResponseError → String
  | .decodeFailed t => "Failed to decode API response as JSON. Response: " ++ t
  | .missingKey k d =>
    "API response missing required key: '" ++ k ++ "'. Response: " ++ reprDict d

-- ### The validator (analyzer.py lines 71 to 87)

/-- The required keys, in the order the loop at line 80 checks them. -/
def required_keys : List String :=
  ["issue_type", "severity", "confidence", "description"]

/-- The `VALID_SEVERITY` list of analyzer.py line 54 (loaded but never
consulted by the validation code). -/
def VALID_SEVERITY : List String := ["high", "medium", "low", "none"]

/-- The for-loop of analyzer.py lines 80 to 82: raise `APIResponseError`
at the first key of `keys` missing from `data`. -/
def checkRequired (keys : List String) (data : Dict) : Except APIResponseError Unit :=
  match keys with
  | [] => .ok ()
  | k :: rest =>
    if (data.lookup k).isNone then .error (.missingKey k data)
    else checkRequired rest data

/-- The membership test at analyzer.py line 84: `data['issue_type'] not in
self.VALID_ISSUE_TYPES`.  A non-string value never equals a string key; the
`none` case is unreachable because field presence was already checked. -/
def issue_type_unexpected (validIssueTypes : List String) (data : Dict) : Bool :=
  match data.lookup "issue_type" with
  | some (JValue.str s) => decide (s ∉ validIssueTypes)
  | some _ => true
  | none => true

/-- Post-parse validation of analyzer.py lines 79 to 87: check the four
required keys, log a warning (an effect with no influence on the result)
when the issue_type label is unexpected, and return the data unchanged. -/
def validate_data (validIssueTypes : List String) (data : Dict) :
    Except APIResponseError Dict :=
  match checkRequired required_keys data with
  | .error e => .error e
  | .ok _ =>
    let _warn := issue_type_unexpected validIssueTypes data
    .ok data

/-- The whole of `_validate_ai_response` (analyzer.py lines 71 to 87):
clean the raw text, parse it with the external `json.loads` capability,
raise `decodeFailed` carrying the original `response_text` on parse
failure, and otherwise validate the parsed data. -/
def validate_ai_response (parse : String → Option Dict)
    (validIssueTypes : List String) (responseText : String) :
    Except APIResponseError Dict :=
  match parse (clean_text responseText) with
  | none => .error (.decodeFailed responseText)
  | some data => validate_data validIssueTypes data

-- ### Routing lookup and enrichment (analyzer.py lines 89 to 107)

/-- The mapping file contents: issue-type key to a routing dict. -/
abbrev Mapping := List (String × List (String × String))

/-- The routing join of analyzer.py lines 94 and 98 to 99:
`self.mapping_data.get(issue_type, {})` followed by
`.get("department", "N/A")` and `.get("responsible", "N/A")`.  Total by
construction: an absent category resolves to the sentinel pair. -/
def lookupRouting (mapping : Mapping) (category : String) : String × String :=
  let details := (mapping.lookup category).getD []
  ((details.lookup "department").getD "N/A",
   (details.lookup "responsible").getD "N/A")

/-- Python dict update `\x7b**d, k: v\x7d` restricted to one key: replace the
value in place if the key is present, else append the pair. -/
def dictSet (d : Dict) (k : String) (v : JValue) : Dict :=
  match d with
  | [] => [(k, v)]
  | (k', v') :: rest =>
    if k' = k then (k', v) :: rest else (k', v') :: dictSet rest k v

/-- The routing pair chosen at analyzer.py lines 93 to 94:
`issue_type = ai_result.get('issue_type')` then
`self.mapping_data.get(issue_type, {})`; a non-string (or absent, which
validation rules out) issue_type never matches a string key of the
mapping, so it resolves to the sentinel pair. -/
def routingOf (mapping : Mapping) (data : Dict) : String × String :=
  match data.lookup "issue_type" with
  | some (JValue.str s) => lookupRouting mapping s
  | _ => ("N/A", "N/A")

/-- The orchestrator `analyze_image` (analyzer.py lines 89 to 107) from
the point where the raw model text is in hand: validate, then merge
`\x7b**ai_result, "department": ..., "responsible": ...\x7d`; every exception
is caught and turned into `\x7b"error": str(e)\x7d`.  The model invocation and
file handling are external collaborators.  `VALID_ISSUE_TYPES` is the list
of mapping keys (analyzer.py line 53). -/
def analyze_image (parse : String → Option Dict) (mapping : Mapping)
    (responseText : String) : Dict :=
  match validate_ai_response parse (mapping.map Prod.fst) responseText with
  | .error e => [("error", JValue.str e.message)]
  | .ok ai =>
    dictSet (dictSet ai "department" (JValue.str (routingOf mapping ai).1))
      "responsible" (JValue.str (routingOf mapping ai).2)

-- ### The response post-processing of main.py (lines 37 to 54 and 92 to 106)

/-- The `ISSUE_TYPE_MAP` of main.py lines 37 to 48. -/
def ISSUE_TYPE_MAP : List (String × String) :=
  [("damaged_road", "Pothole / Damaged Road"),
   ("pothole", "Pothole"),
   ("waste_dump", "Garbage / Waste Dump"),
   ("streetlight_fault", "Streetlight not working"),
   ("water_leak", "Water Leakage"),
   ("graffiti", "Graffiti"),
   ("sewage_overflow", "Sewage Overflow"),
   ("tree_fall", "Fallen Tree"),
   ("drainage_block", "Blocked Drainage"),
   ("unknown_issue", "Unidentified Issue")]

/-- The `SEVERITY_MESSAGES` advisory table of main.py lines 50 to 54. -/
def SEVERITY_MESSAGES : List (String × String) :=
  [("low", "It is not urgent but should be resolved soon."),
   ("medium", "It may cause inconvenience if not fixed in time."),
   ("high", "It is critical and needs urgent attention.")]

/-- Python `str.lower()` (ASCII model, which covers every string the
code compares). -/
def pyLower (s : String) : String := String.mk (s.data.map Char.toLower)

/-- Python `str.capitalize()`: first character uppercased, the rest
lowercased. -/
def pyCapitalize (s : String) : String :=
  match s.data with
  | [] => ""
  | c :: rest => String.mk (c.toUpper :: rest.map Char.toLower)

/-- Python `s.replace("_", " ")`, a character-wise map. -/
def replaceUnderscores (s : String) : String :=
  String.mk (s.data.map (fun c => if c = '_' then ' ' else c))

/-- String-level `str.strip()`. -/
def pyStripS (s : String) : String := String.mk (pyStrip s.data)

/-- The readable label of main.py line 94:
`ISSUE_TYPE_MAP.get(issue_type, issue_type.replace("_", " ").capitalize())`. -/
def readable_issue (issueType : String) : String :=
  (ISSUE_TYPE_MAP.lookup issueType).getD
    (pyCapitalize (replaceUnderscores issueType))

/-- The advisory sentence of main.py lines 99 to 100:
`SEVERITY_MESSAGES.get(severity.lower(), "Severity not specified.")`. -/
def severity_message (severity : String) : String :=
  (SEVERITY_MESSAGES.lookup (pyLower severity)).getD "Severity not specified."

/-- The description of the final response (main.py lines 103 to 106): the
trimmed model description, or, when that is empty, a sentence synthesized
from the lowercased readable label and the advisory sentence. -/
def final_description (issueType severity description : String) : String :=
  if pyStripS description = "" then
    "A " ++ pyLower (readable_issue issueType) ++ " was detected. "
      ++ severity_message severity
  else pyStripS description

-- ### The district classifier

/-- Modelled from the spec: the District Classifier (spec section 4.6) is
served by an auxiliary endpoint whose source is not under src/; the fixed
district list is the standard list of Jharkhand districts, with Ranchi
first as in the spec's scenarios. -/
def jharkhandDistricts : List String :=
  ["Ranchi", "Dhanbad", "Bokaro", "Deoghar", "Dumka", "East Singhbhum",
   "Garhwa", "Giridih", "Godda", "Gumla", "Hazaribagh", "Jamtara",
   "Khunti", "Koderma", "Latehar", "Lohardaga", "Pakur", "Palamu",
   "Ramgarh", "Sahibganj", "Seraikela Kharsawan", "Simdega",
   "West Singhbhum", "Chatra"]

/-- Modelled from the spec (section 4.6): case-insensitive substring
matching; if the region name is absent return "Not in Jharkhand", else
return the first matching district of the fixed list, else the
unknown-district sentinel.  Pure function of the lowercased address. -/
def classify_location (address : String) : String :=
  if hasSub "jharkhand".data (pyLower address).data then
    match jharkhandDistricts.find?
        (fun d => hasSub (pyLower d).data (pyLower address).data) with
    | some d => d
    | none => "Jharkhand (District Unknown)"
  else "Not in Jharkhand"

-- ### Helper lemmas about the validator and dict update

theorem checkRequired_eq_find (keys : List String) (data : Dict) :
    checkRequired keys data =
      match keys.find? (fun k => (data.lookup k).isNone) with
      | some k => .error (.missingKey k data)
      | none => .ok () := by
  induction keys with
  | nil => rfl
  | cons k rest ih =>
    simp only [checkRequired, List.find?_cons]
    by_cases h : (data.lookup k).isNone = true
    · rw [h]
      simp [h]
    · have h0 : (data.lookup k).isNone = false := by
        cases hb : (data.lookup k).isNone with
        | false => rfl
        | true => exact absurd hb h
      rw [h0]
      simp [h0, ih]

theorem validate_data_of_none (vt : List String) (data : Dict)
    (h : required_keys.find? (fun k => (data.lookup k).isNone) = none) :
    validate_data vt data = .ok data := by
  unfold validate_data
  rw [checkRequired_eq_find, h]

theorem validate_data_of_missing (vt : List String) (data : Dict) (k : String)
    (h : required_keys.find? (fun x => (data.lookup x).isNone) = some k) :
    validate_data vt data = .error (.missingKey k data) := by
  unfold validate_data
  rw [checkRequired_eq_find, h]

theorem validate_data_ok_inv (vt : List String) (d data : Dict)
    (h : validate_data vt d = .ok data) :
    data = d ∧ required_keys.find? (fun k => (d.lookup k).isNone) = none := by
  unfold validate_data at h
  rw [checkRequired_eq_find] at h
  cases hf : required_keys.find? (fun k => (d.lookup k).isNone) with
  | some k =>
    rw [hf] at h
    simp at h
  | none =>
    rw [hf] at h
    simp at h
    exact ⟨h.symm, rfl⟩

theorem lookup_dictSet_self (d : Dict) (k : String) (v : JValue) :
    (dictSet d k v).lookup k = some v := by
  induction d with
  | nil => simp [dictSet]
  | cons kv rest ih =>
    obtain ⟨k', v'⟩ := kv
    by_cases h : k' = k
    · subst h
      simp [dictSet]
    · have hb : (k == k') = false := beq_eq_false_iff_ne.mpr (fun hh => h hh.symm)
      simp [dictSet, h, List.lookup_cons, hb, ih]

theorem lookup_dictSet_ne (d : Dict) (k k₂ : String) (v : JValue)
    (h : k₂ ≠ k) : (dictSet d k v).lookup k₂ = d.lookup k₂ := by
  induction d with
  | nil =>
    have hb : (k₂ == k) = false := beq_eq_false_iff_ne.mpr h
    simp [dictSet, List.lookup_cons, hb]
  | cons kv rest ih =>
    obtain ⟨k', v'⟩ := kv
    by_cases hk : k' = k
    · subst hk
      have hb : (k₂ == k') = false := beq_eq_false_iff_ne.mpr h
      simp [dictSet, List.lookup_cons, hb]
    · by_cases h2 : k₂ = k'
      · subst h2
        simp [dictSet, hk, List.lookup_cons]
      · have hb : (k₂ == k') = false := beq_eq_false_iff_ne.mpr h2
        simp [dictSet, hk, List.lookup_cons, hb, ih]

theorem lookup_dictSet_isSome (d : Dict) (k k₂ : String) (v : JValue)
    (h : ((dictSet d k v).lookup k₂).isSome = true) :
    (d.lookup k₂).isSome = true ∨ k₂ = k := by
  by_cases hk : k₂ = k
  · exact Or.inr hk
  · rw [lookup_dictSet_ne d k k₂ v hk] at h
    exact Or.inl h

-- ### Concrete model outputs used as counterexamples and witnesses

/-- A parsed model output whose category is outside the catalog. -/
def dataBadType : Dict :=
  [("issue_type", JValue.str "spaceship_crash"),
   ("severity", JValue.str "low"),
   ("confidence", JValue.num (1/2)),
   ("description", JValue.str "An unusual object on the road.")]

/-- A parsed model output whose severity is outside `VALID_SEVERITY`. -/
def dataBadSeverity : Dict :=
  [("issue_type", JValue.str "pothole"),
   ("severity", JValue.str "catastrophic"),
   ("confidence", JValue.num (9/10)),
   ("description", JValue.str "Large pothole on main road.")]

/-- A parsed model output whose confidence lies outside the unit range. -/
def dataBadConfidence : Dict :=
  [("issue_type", JValue.str "pothole"),
   ("severity", JValue.str "high"),
   ("confidence", JValue.num (3/2)),
   ("description", JValue.str "Large pothole on main road.")]

/-- A parsed model output missing `confidence` and `description`. -/
def dataMissing : Dict :=
  [("issue_type", JValue.str "pothole"),
   ("severity", JValue.str "high")]

/-- C1 as stated is false on the code: the validator at analyzer.py lines
84 to 87 only logs a warning for an out-of-catalog `issue_type` and
returns the data unchanged, so the returned record's category is the
original out-of-catalog value, not `unknown_issue`. -/
theorem C1_counterexample :
    validate_data ["pothole"] dataBadType = Except.ok dataBadType ∧
    dataBadType.lookup "issue_type" = some (JValue.str "spaceship_crash") ∧
    JValue.str "spaceship_crash" ≠ JValue.str "unknown_issue" :=
  ⟨rfl, rfl, by decide⟩

/-- C1 (amended): for a raw model output whose four required fields are
present and whose `issue_type` is outside the catalog, validation does not
fail, but the returned record keeps the original out-of-catalog
`issue_type`; it is not rewritten to `unknown_issue` (only a warning is
logged). -/
theorem C1_invalid_category_preserved (vt : List String) (data : Dict)
    (s : String)
    (hfields : required_keys.find? (fun k => (data.lookup k).isNone) = none)
    (hval : data.lookup "issue_type" = some (JValue.str s))
    (_hinv : s ∉ vt) :
    ∃ out, validate_data vt data = Except.ok out ∧
      out.lookup "issue_type" = some (JValue.str s) :=
  ⟨data, validate_data_of_none vt data hfields, hval⟩

/-- Witness for the amended C1 at the concrete out-of-catalog output. -/
theorem C1_invalid_category_preserved_witness :
    ∃ out, validate_data ["pothole"] dataBadType = Except.ok out ∧
      out.lookup "issue_type" = some (JValue.str "spaceship_crash") :=
  C1_invalid_category_preserved ["pothole"] dataBadType "spaceship_crash"
    (by decide) (by decide) (by decide)

/-- C2 as stated is false on the code: `_validate_ai_response` never
consults `VALID_SEVERITY`, so an out-of-enumeration severity is returned
unchanged rather than normalized to `medium`. -/
theorem C2_counterexample :
    validate_data ["pothole"] dataBadSeverity = Except.ok dataBadSeverity ∧
    dataBadSeverity.lookup "severity" = some (JValue.str "catastrophic") ∧
    "catastrophic" ∉ VALID_SEVERITY ∧
    JValue.str "catastrophic" ≠ JValue.str "medium" :=
  ⟨rfl, rfl, by decide, by decide⟩

/-- C2 (amended): once the four required fields are present validation
does not fail, and every severity value, whether or not it belongs to
`validSeverities`, passes through unchanged; an invalid severity is not
rewritten to the safe default `medium`. -/
theorem C2_severity_passthrough (vt : List String) (data : Dict) (s : String)
    (hfields : required_keys.find? (fun k => (data.lookup k).isNone) = none)
    (hval : data.lookup "severity" = some (JValue.str s)) :
    ∃ out, validate_data vt data = Except.ok out ∧
      out.lookup "severity" = some (JValue.str s) :=
  ⟨data, validate_data_of_none vt data hfields, hval⟩

/-- Witness for the amended C2 at the concrete out-of-enumeration
severity. -/
theorem C2_severity_passthrough_witness :
    ∃ out, validate_data ["pothole"] dataBadSeverity = Except.ok out ∧
      out.lookup "severity" = some (JValue.str "catastrophic") :=
  C2_severity_passthrough ["pothole"] dataBadSeverity "catastrophic"
    (by decide) (by decide)

/-- C3 as stated is false on the code: `_validate_ai_response` performs no
range check on `confidence`, so a value outside the unit interval is
returned as-is rather than clamped into range. -/
theorem C3_counterexample :
    validate_data ["pothole"] dataBadConfidence = Except.ok dataBadConfidence ∧
    dataBadConfidence.lookup "confidence" = some (JValue.num (3/2)) ∧
    ¬ ((3/2 : Rat) ≤ 1) :=
  ⟨rfl, rfl, by norm_num⟩

/-- C3 (amended): once the four required fields are present validation
does not fail, and every confidence value, inside or outside the range
[0.0, 1.0], passes through unchanged; out-of-range values are neither
clamped nor rejected. -/
theorem C3_confidence_passthrough (vt : List String) (data : Dict) (q : Rat)
    (hfields : required_keys.find? (fun k => (data.lookup k).isNone) = none)
    (hval : data.lookup "confidence" = some (JValue.num q)) :
    ∃ out, validate_data vt data = Except.ok out ∧
      out.lookup "confidence" = some (JValue.num q) :=
  ⟨data, validate_data_of_none vt data hfields, hval⟩

/-- Witness for the amended C3 at the concrete out-of-range confidence. -/
theorem C3_confidence_passthrough_witness :
    ∃ out, validate_data ["pothole"] dataBadConfidence = Except.ok out ∧
      out.lookup "confidence" = some (JValue.num (3/2)) :=
  C3_confidence_passthrough ["pothole"] dataBadConfidence (3/2)
    (by decide) rfl

/-- C4: a parsed model output lacking one of the four required fields
makes validation fail with an `APIResponseError` naming the first missing
field in the check order issue_type, severity, confidence, description
(the order fixed by `required_keys`), and no record is returned. -/
theorem C4_missing_field_error (vt : List String) (data : Dict) (k : String)
    (h : required_keys.find? (fun x => (data.lookup x).isNone) = some k) :
    validate_data vt data = Except.error (APIResponseError.missingKey k data) ∧
    ∀ out, validate_data vt data ≠ Except.ok out := by
  refine ⟨validate_data_of_missing vt data k h, ?_⟩
  intro out hout
  rw [validate_data_of_missing vt data k h] at hout
  exact Except.noConfusion hout

/-- Witness for C4: with confidence and description absent, the error
names `confidence`, the first missing field in check order. -/
theorem C4_missing_field_error_witness :
    validate_data [] dataMissing =
      Except.error (APIResponseError.missingKey "confidence" dataMissing) :=
  (C4_missing_field_error [] dataMissing "confidence" (by decide)).1

-- ### Claims about the orchestrator and the enrichment join

theorem validate_ai_ok_inv (parse : String → Option Dict) (vt : List String)
    (raw : String) (data : Dict)
    (h : validate_ai_response parse vt raw = Except.ok data) :
    required_keys.find? (fun k => (data.lookup k).isNone) = none := by
  unfold validate_ai_response at h
  cases hp : parse (clean_text raw) with
  | none =>
    rw [hp] at h
    exact Except.noConfusion h
  | some d =>
    rw [hp] at h
    obtain ⟨hd, hf⟩ := validate_data_ok_inv vt d data h
    subst hd
    exact hf

/-- A parse capability that fails, as `json.loads` does on the raw text
"not json". -/
def parseFailing : String → Option Dict := fun _ => none

/-- C5 as stated is false on the code: `analyze_image` converts every
exception to `\x7b"error": str(e)\x7d` (analyzer.py line 107), and for a JSON
decode failure `str(e)` embeds the raw model output (line 77), so the
error marker's message does contain the raw model output text. -/
theorem C5_counterexample :
    analyze_image parseFailing [] "not json" =
      [("error", JValue.str
        "Failed to decode API response as JSON. Response: not json")] ∧
    hasSub "not json".data
      "Failed to decode API response as JSON. Response: not json".data = true :=
  ⟨rfl, by decide⟩

/-- C5 (amended): `analyze_image` is total (no exception escapes the
orchestrator) and returns one of exactly two outcome shapes — on
validation failure the dict `\x7b"error": str(e)\x7d` whose message is exactly
the internal exception text (which for decode failures embeds the raw
model output), and on success an enriched record carrying the four
required fields plus department and responsible. -/
theorem C5_outcome_shapes (parse : String → Option Dict) (mapping : Mapping)
    (raw : String) :
    (∃ e, validate_ai_response parse (mapping.map Prod.fst) raw = Except.error e ∧
      analyze_image parse mapping raw = [("error", JValue.str e.message)]) ∨
    (∃ data, validate_ai_response parse (mapping.map Prod.fst) raw = Except.ok data ∧
      (∀ k ∈ required_keys,
        ((analyze_image parse mapping raw).lookup k).isSome = true) ∧
      ((analyze_image parse mapping raw).lookup "department").isSome = true ∧
      ((analyze_image parse mapping raw).lookup "responsible").isSome = true) := by
  cases h : validate_ai_response parse (mapping.map Prod.fst) raw with
  | error e =>
    left
    refine ⟨e, rfl, ?_⟩
    unfold analyze_image
    rw [h]
  | ok data =>
    right
    have hfind := validate_ai_ok_inv parse (mapping.map Prod.fst) raw data h
    have hpresent : ∀ k ∈ required_keys, (data.lookup k).isSome = true := by
      intro k hk
      have hnp := List.find?_eq_none.mp hfind k hk
      cases ho : data.lookup k with
      | none => exact absurd (by rw [ho]; rfl) hnp
      | some v => rfl
    have hana : analyze_image parse mapping raw =
        dictSet (dictSet data "department"
          (JValue.str (routingOf mapping data).1)) "responsible"
          (JValue.str (routingOf mapping data).2) := by
      unfold analyze_image
      rw [h]
    refine ⟨data, rfl, ?_, ?_, ?_⟩
    · intro k hk
      have hne : k ≠ "department" ∧ k ≠ "responsible" := by
        have hk' : k = "issue_type" ∨ k = "severity" ∨ k = "confidence"
            ∨ k = "description" := by simpa [required_keys] using hk
        rcases hk' with rfl | rfl | rfl | rfl <;> exact ⟨by decide, by decide⟩
      rw [hana, lookup_dictSet_ne _ _ k _ hne.2, lookup_dictSet_ne _ _ k _ hne.1]
      exact hpresent k hk
    · rw [hana, lookup_dictSet_ne _ _ _ _ (by decide), lookup_dictSet_self]
      rfl
    · rw [hana, lookup_dictSet_self]
      rfl

/-- C6: the routing lookup used by enrichment is total — an absent
category resolves to the sentinel pair ("N/A", "N/A") rather than an
error (`lookupRouting` is a total function; nothing is raised). -/
theorem C6_lookupRouting_total (mapping : Mapping) (category : String)
    (h : mapping.lookup category = none) :
    lookupRouting mapping category = ("N/A", "N/A") := by
  unfold lookupRouting
  rw [h]
  rfl

/-- Witness for C6: a category outside the concrete mapping resolves to
the sentinel pair. -/
theorem C6_lookupRouting_total_witness :
    lookupRouting
      [("pothole", [("department", "Roads Department"),
        ("responsible", "City Engineer")])] "unknown_issue" = ("N/A", "N/A") :=
  C6_lookupRouting_total
    [("pothole", [("department", "Roads Department"),
      ("responsible", "City Engineer")])] "unknown_issue" (by decide)

/-- A validated model output that also carries a `department` key of its
own. -/
def dataWithDept : Dict :=
  [("issue_type", JValue.str "pothole"),
   ("severity", JValue.str "high"),
   ("confidence", JValue.num (9/10)),
   ("description", JValue.str "Large pothole on main road."),
   ("department", JValue.str "from-model")]

/-- A parse capability returning `dataWithDept`. -/
def parseDept : String → Option Dict := fun _ => some dataWithDept

/-- The concrete mapping used in the enrichment examples. -/
def mappingPothole : Mapping :=
  [("pothole", [("department", "Roads Department"),
    ("responsible", "City Engineer")])]

/-- C10 as stated is false on the code: the merge
`\x7b**ai_result, "department": ..., "responsible": ...\x7d` overwrites a
model-supplied `department` (or `responsible`) key, so not every key of
the validated result keeps its value. -/
theorem C10_counterexample :
    validate_ai_response parseDept (mappingPothole.map Prod.fst) "x" =
      Except.ok dataWithDept ∧
    dataWithDept.lookup "department" = some (JValue.str "from-model") ∧
    (analyze_image parseDept mappingPothole "x").lookup "department" =
      some (JValue.str "Roads Department") :=
  ⟨rfl, rfl, rfl⟩

/-- C10 (amended): for every validated model result, the enrichment join
preserves every key except `department` and `responsible`, sets
`department` and `responsible` from the routing lookup (overwriting any
same-named keys of the validated result), and adds no key beyond these
two. -/
theorem C10_enrichment_frame (parse : String → Option Dict) (mapping : Mapping)
    (raw : String) (data : Dict)
    (h : validate_ai_response parse (mapping.map Prod.fst) raw = Except.ok data) :
    (∀ k, k ≠ "department" → k ≠ "responsible" →
      (analyze_image parse mapping raw).lookup k = data.lookup k) ∧
    (analyze_image parse mapping raw).lookup "department"
      = some (JValue.str (routingOf mapping data).1) ∧
    (analyze_image parse mapping raw).lookup "responsible"
      = some (JValue.str (routingOf mapping data).2) ∧
    (∀ k, ((analyze_image parse mapping raw).lookup k).isSome = true →
      (data.lookup k).isSome = true ∨ k = "department" ∨ k = "responsible") := by
  have hana : analyze_image parse mapping raw =
      dictSet (dictSet data "department"
        (JValue.str (routingOf mapping data).1)) "responsible"
        (JValue.str (routingOf mapping data).2) := by
    unfold analyze_image
    rw [h]
  refine ⟨?_, ?_, ?_, ?_⟩
  · intro k h1 h2
    rw [hana, lookup_dictSet_ne _ _ k _ h2, lookup_dictSet_ne _ _ k _ h1]
  · rw [hana, lookup_dictSet_ne _ _ _ _ (by decide), lookup_dictSet_self]
  · rw [hana, lookup_dictSet_self]
  · intro k hk
    rw [hana] at hk
    rcases lookup_dictSet_isSome _ _ _ _ hk with hk1 | hk1
    · rcases lookup_dictSet_isSome _ _ _ _ hk1 with hk2 | hk2
      · exact Or.inl hk2
      · exact Or.inr (Or.inl hk2)
    · exact Or.inr (Or.inr hk1)

/-- Witness for the amended C10 at the concrete validated output: the
severity survives unchanged and the department comes from the routing
lookup. -/
theorem C10_enrichment_frame_witness :
    (analyze_image parseDept mappingPothole "x").lookup "severity"
      = dataWithDept.lookup "severity" ∧
    (analyze_image parseDept mappingPothole "x").lookup "department"
      = some (JValue.str (routingOf mappingPothole dataWithDept).1) := by
  have h := C10_enrichment_frame parseDept mappingPothole "x" dataWithDept rfl
  exact ⟨h.1 "severity" (by decide) (by decide), h.2.1⟩

-- ### Claims about the description fallback and the district classifier

/-- C8: every successfully produced record has a non-empty description:
the trimmed model description when non-empty, otherwise a sentence
synthesized from the human-readable label and the severity-specific
advisory sentence, with "Severity not specified." when the severity (as
looked up by the code, lowercased) is outside the known advisory set. -/
theorem C8_description_nonempty :
    ∀ issueType severity description : String,
      final_description issueType severity description ≠ "" ∧
      (pyStripS description = "" →
        final_description issueType severity description =
          "A " ++ pyLower (readable_issue issueType) ++ " was detected. "
            ++ severity_message severity) ∧
      (SEVERITY_MESSAGES.lookup (pyLower severity) = none →
        severity_message severity = "Severity not specified.") := by
  intro it sev desc
  refine ⟨?_, ?_, ?_⟩
  · unfold final_description
    by_cases hd : pyStripS desc = ""
    · rw [if_pos hd]
      intro h
      have hlen := congrArg String.length h
      rw [String.length_append, String.length_append, String.length_append,
        show ("A " : String).length = 2 from rfl,
        show ("" : String).length = 0 from rfl] at hlen
      omega
    · rw [if_neg hd]
      exact hd
  · intro h
    unfold final_description
    rw [if_pos h]
  · intro h
    unfold severity_message
    rw [h]
    rfl

/-- Witness for C8 at a concrete record with a whitespace-only model
description and a severity outside the advisory table. -/
theorem C8_description_nonempty_witness :
    final_description "pothole" "weird" " " =
      "A " ++ pyLower (readable_issue "pothole") ++ " was detected. "
        ++ severity_message "weird" ∧
    final_description "pothole" "weird" " " ≠ "" :=
  ⟨(C8_description_nonempty "pothole" "weird" " ").2.1 (by decide),
   (C8_description_nonempty "pothole" "weird" " ").1⟩

/-- C7: the classifier returns exactly one of a district name, "Not in
Jharkhand", or "Jharkhand (District Unknown)"; it returns "Not in
Jharkhand" exactly when the region name is absent (case-insensitive
substring matching); when the region is present it returns the first
matching district in the fixed list order; and it depends on the address
only through its lowercasing, so case variants of an address classify
identically. -/
theorem C7_classifier_contract :
    (∀ addr : String,
      classify_location addr ∈ jharkhandDistricts ∨
      classify_location addr = "Not in Jharkhand" ∨
      classify_location addr = "Jharkhand (District Unknown)") ∧
    (∀ addr : String,
      classify_location addr = "Not in Jharkhand" ↔
        hasSub "jharkhand".data (pyLower addr).data = false) ∧
    (∀ (addr d : String),
      hasSub "jharkhand".data (pyLower addr).data = true →
      jharkhandDistricts.find?
        (fun x => hasSub (pyLower x).data (pyLower addr).data) = some d →
      classify_location addr = d) ∧
    (∀ addr addr' : String, pyLower addr = pyLower addr' →
      classify_location addr = classify_location addr') := by
  refine ⟨?_, ?_, ?_, ?_⟩
  · intro addr
    unfold classify_location
    by_cases hr : hasSub "jharkhand".data (pyLower addr).data = true
    · rw [if_pos hr]
      cases hf : jharkhandDistricts.find?
          (fun d => hasSub (pyLower d).data (pyLower addr).data) with
      | some d =>
        left
        simp only [hf]
        exact List.mem_of_find?_eq_some hf
      | none =>
        right
        right
        simp only [hf]
    · rw [if_neg hr]
      right
      left
      rfl
  · intro addr
    constructor
    · intro h
      cases hb : hasSub "jharkhand".data (pyLower addr).data with
      | false => rfl
      | true =>
        exfalso
        unfold classify_location at h
        rw [if_pos hb] at h
        cases hf : jharkhandDistricts.find?
            (fun d => hasSub (pyLower d).data (pyLower addr).data) with
        | some d =>
          rw [hf] at h
          simp only at h
          have hd := List.mem_of_find?_eq_some hf
          rw [h] at hd
          exact absurd hd (by decide)
        | none =>
          rw [hf] at h
          simp only at h
          exact absurd h (by decide)
    · intro h
      unfold classify_location
      rw [if_neg (by simp [h])]
  · intro addr d hr hf
    unfold classify_location
    rw [if_pos hr]
    simp only [hf]
  · intro addr addr' h
    unfold classify_location
    rw [h]

/-- Witness for C7 at the spec's concrete scenarios: the address
"MG Road, Ranchi, Jharkhand" classifies to "Ranchi", and upper- and
lower-case variants of the same address classify identically. -/
theorem C7_classifier_contract_witness :
    classify_location "MG Road, Ranchi, Jharkhand" = "Ranchi" ∧
    classify_location "RANCHI, JHARKHAND" = classify_location "ranchi, jharkhand" :=
  ⟨C7_classifier_contract.2.2.1 "MG Road, Ranchi, Jharkhand" "Ranchi"
      (by decide) (by decide),
   C7_classifier_contract.2.2.2 "RANCHI, JHARKHAND" "ranchi, jharkhand"
      (by decide)⟩
